import Mathlib

/-
Verification of the diff-to-review pipeline of the ai-codereviewer repository
(src/main.ts and its Java/Spring-specialized variant) against its
natural-language specification.

The TypeScript source is shallowly embedded: pure functions become Lean
functions; the effectful collaborators (the OpenAI chat call, the GitHub
submission call) are modelled as oracle parameters and explicit outcome
types, so that each source function's control flow over those outcomes is
translated directly.
-/

set_option maxRecDepth 4000

namespace CodeReviewer

/-! ## String utilities

Computable counterparts of the JavaScript string operations the source uses
(`split`, `trim`, `startsWith`, slicing).  They are defined by structural
recursion over the character list so that every pipeline definition
evaluates inside the kernel. -/

/-- Split a character list at every occurrence of `sep` (the JavaScript
`String.prototype.split` with a one-character separator: an empty input
yields one empty piece). -/
def splitChar (sep : Char) : List Char → List (List Char)
  | [] => [[]]
  | c :: cs =>
    let r := splitChar sep cs
    if c = sep then [] :: r
    else
      match r with
      | h :: t => (c :: h) :: t
      | [] => [[c]]

/-- JavaScript `s.split(sep)` for a one-character separator. -/
def strSplit (s : String) (sep : Char) : List String :=
  (splitChar sep s.data).map String.mk

/-- An ASCII whitespace character (the whitespace the pipeline's inputs can
contain; the full Unicode whitespace class of JavaScript `trim` is not
needed). -/
def isWsChar (c : Char) : Bool :=
  c = ' ' ∨ c = '\t' ∨ c = '\n' ∨ c = '\r' ∨ c = '\x0b' ∨ c = '\x0c'

/-- JavaScript `s.trim()`. -/
def trimStr (s : String) : String :=
  String.mk (((s.data.dropWhile isWsChar).reverse.dropWhile isWsChar).reverse)

/-- JavaScript `s.startsWith(pre)`. -/
def strStartsWith (s pre : String) : Bool :=
  pre.data.isPrefixOf s.data

/-- Drop the first `n` characters of a string. -/
def strDrop (s : String) (n : Nat) : String :=
  String.mk (s.data.drop n)

/-- Join a list of strings with a separator (JavaScript `Array.join`). -/
def joinWith (sep : String) : List String → String
  | [] => ""
  | [s] => s
  | s :: rest => s ++ sep ++ joinWith sep rest

/-! ## JavaScript primitive value model -/

/-- A JavaScript number as produced by `Number(...)` on the tokens the
pipeline handles: either NaN or an integer value.  (Fractional, hex and
`Infinity` literal forms are not produced by the pipeline's integer
line-number tokens; any such token is mapped to `nan` here.) -/
inductive JsNum where
  | nan : JsNum
  | num (n : Int) : JsNum
  deriving DecidableEq, Repr

/-- Digit characters to an `Option Nat`: `some` exactly when the list is a
non-empty all-digit list. -/
def digitsToNatOpt (cs : List Char) : Option Nat :=
  if cs ≠ [] ∧ cs.all (fun c => c.isDigit) then
    some (cs.foldl (fun a c => a * 10 + (c.toNat - 48)) 0)
  else none

/-- Models the JavaScript conversion `Number(s)` for a string `s`, restricted
to integer-form tokens: surrounding whitespace is trimmed, the empty string
converts to `0`, an optional sign followed by digits converts to the signed
integer, and every other token converts to NaN.  (Hex, fractional, exponent
and `Infinity` forms are not produced by the pipeline's line-number tokens
and also map to `nan` here.) -/
def strToNumber (s : String) : JsNum :=
  let t := trimStr s
  match t.data with
  | [] => .num 0
  | '+' :: rest =>
    match digitsToNatOpt rest with
    | some n => .num (Int.ofNat n)
    | none => .nan
  | '-' :: rest =>
    match digitsToNatOpt rest with
    | some n => .num (-(Int.ofNat n))
    | none => .nan
  | cs =>
    match digitsToNatOpt cs with
    | some n => .num (Int.ofNat n)
    | none => .nan

/-- The JavaScript loose comparison `x != null` for an `x` of number type:
loose inequality against `null` is false only when `x` is `null` or
`undefined`, and a JavaScript number value (NaN included) is neither, so the
comparison is true for every `JsNum`. -/
def JsNum.looseNeNull (_ : JsNum) : Bool := true

/-- JavaScript template-literal interpolation of a `string | undefined`
value: `undefined` renders as the text "undefined". -/
def jsTemplate : Option String → String
  | some s => s
  | none => "undefined"

/-! ## A small JSON value model

`JSON.parse` is a JavaScript builtin; we model it for the grammar subset the
pipeline's response contract exercises: `null`, booleans, integer numerals,
strings with the common escapes, arrays and objects.  Fractional/exponent
numerals and `\u` escapes are outside the modelled subset and are mapped to
a parse failure (which the source treats as a caught exception). -/

inductive Json where
  | null : Json
  | bool (b : Bool) : Json
  | num (n : Int) : Json
  | str (s : String) : Json
  | arr (elements : List Json) : Json
  | obj (fields : List (String × Json)) : Json

/-- Skip JSON whitespace characters. -/
def jsonSkipWs : List Char → List Char
  | [] => []
  | c :: cs =>
    if c = ' ' ∨ c = '\t' ∨ c = '\n' ∨ c = '\r' then jsonSkipWs cs else c :: cs

/-- Decimal digits to a natural number. -/
def digitsToNat (cs : List Char) : Nat :=
  cs.foldl (fun a c => a * 10 + (c.toNat - 48)) 0

/-- Parse the body of a JSON string literal (after the opening quote),
returning the decoded characters and the remaining input. -/
def parseJsonStringAux : List Char → Option (List Char × List Char)
  | [] => none
  | c :: cs =>
    if c = '"' then some ([], cs)
    else if c = '\\' then
      match cs with
      | [] => none
      | e :: cs' =>
        let dec : Option Char :=
          if e = '"' then some '"'
          else if e = '\\' then some '\\'
          else if e = '/' then some '/'
          else if e = 'n' then some '\n'
          else if e = 't' then some '\t'
          else if e = 'r' then some '\r'
          else none
        match dec with
        | none => none
        | some d =>
          match parseJsonStringAux cs' with
          | some (body, rest) => some (d :: body, rest)
          | none => none
    else
      match parseJsonStringAux cs with
      | some (body, rest) => some (c :: body, rest)
      | none => none

mutual

/-- Fuel-indexed recursive-descent parser for a JSON value. -/
def parseJsonVal : Nat → List Char → Option (Json × List Char)
  | 0, _ => none
  | fuel + 1, input =>
    match jsonSkipWs input with
    | [] => none
    | c :: rest =>
      if c = 'n' then
        match rest with
        | 'u' :: 'l' :: 'l' :: r => some (.null, r)
        | _ => none
      else if c = 't' then
        match rest with
        | 'r' :: 'u' :: 'e' :: r => some (.bool true, r)
        | _ => none
      else if c = 'f' then
        match rest with
        | 'a' :: 'l' :: 's' :: 'e' :: r => some (.bool false, r)
        | _ => none
      else if c = '"' then
        match parseJsonStringAux rest with
        | some (body, r) => some (.str (String.mk body), r)
        | none => none
      else if c = '[' then
        match jsonSkipWs rest with
        | ']' :: r => some (.arr [], r)
        | r2 =>
          match parseJsonArrayItems fuel r2 with
          | some (elems, r) => some (.arr elems, r)
          | none => none
      else if c = Char.ofNat 123 then
        match jsonSkipWs rest with
        | r2 =>
          if r2.head? = some (Char.ofNat 125) then some (.obj [], r2.tail)
          else
            match parseJsonObjectItems fuel r2 with
            | some (fields, r) => some (.obj fields, r)
            | none => none
      else if c = '-' then
        match rest.takeWhile (fun d => d.isDigit), rest.dropWhile (fun d => d.isDigit) with
        | [], _ => none
        | ds, r =>
          if r.head? = some '.' ∨ r.head? = some 'e' ∨ r.head? = some 'E' then none
          else some (.num (-(Int.ofNat (digitsToNat ds))), r)
      else if c.isDigit then
        match (c :: rest).takeWhile (fun d => d.isDigit), (c :: rest).dropWhile (fun d => d.isDigit) with
        | ds, r =>
          if r.head? = some '.' ∨ r.head? = some 'e' ∨ r.head? = some 'E' then none
          else some (.num (Int.ofNat (digitsToNat ds)), r)
      else none

/-- Parse the comma-separated items of a non-empty JSON array. -/
def parseJsonArrayItems : Nat → List Char → Option (List Json × List Char)
  | 0, _ => none
  | fuel + 1, input =>
    match parseJsonVal fuel input with
    | none => none
    | some (v, rest) =>
      match jsonSkipWs rest with
      | ',' :: r =>
        match parseJsonArrayItems fuel r with
        | some (vs, r2) => some (v :: vs, r2)
        | none => none
      | ']' :: r => some ([v], r)
      | _ => none

/-- Parse the comma-separated fields of a non-empty JSON object. -/
def parseJsonObjectItems : Nat → List Char → Option (List (String × Json) × List Char)
  | 0, _ => none
  | fuel + 1, input =>
    match jsonSkipWs input with
    | '"' :: rest =>
      match parseJsonStringAux rest with
      | none => none
      | some (key, r1) =>
        match jsonSkipWs r1 with
        | ':' :: r2 =>
          match parseJsonVal fuel r2 with
          | none => none
          | some (v, r3) =>
            match jsonSkipWs r3 with
            | ',' :: r4 =>
              match parseJsonObjectItems fuel r4 with
              | some (fields, r5) => some ((String.mk key, v) :: fields, r5)
              | none => none
            | r4 =>
              if r4.head? = some (Char.ofNat 125) then
                some ([(String.mk key, v)], r4.tail)
              else none
        | _ => none
    | _ => none

end

/-- Models the JavaScript builtin `JSON.parse` on the grammar subset
described above: `none` stands for a thrown `SyntaxError`. -/
def jsonParse (s : String) : Option Json :=
  match parseJsonVal (s.length + 1) s.data with
  | some (j, rest) => if jsonSkipWs rest = [] then some j else none
  | none => none

/-- JavaScript property access `v.key` on a parsed JSON value: yields the
last binding of `key` when `v` is an object that has one, and `undefined`
(here `none`) otherwise.  (Access on `null` — the one throwing case — is
handled separately at the call site.) -/
def Json.getField (v : Json) (key : String) : Option Json :=
  match v with
  | .obj fields => fields.foldl (fun acc kv => if kv.1 = key then some kv.2 else acc) none
  | _ => none

/-- JavaScript truthiness of a parsed JSON value. -/
def jsonTruthy : Json → Bool
  | .null => false
  | .bool b => b
  | .num n => decide (n ≠ 0)
  | .str s => decide (s ≠ "")
  | .arr _ => true
  | .obj _ => true

/-! ## Data model (the parse-diff library's types, as consumed by the source)

`parse-diff` is the library the source uses to turn the raw unified diff into
`File`/`Chunk`/`Change` values.  Its types are embedded as declared, with
`string | undefined` rendered as `Option String`. -/

/-- One diff line as produced by parse-diff.  `content` is the raw diff line
including its leading marker character.  For `add` and `del` changes the
library fills `ln`; for `normal` (context) changes it fills `ln1` (old-file
counter) and `ln2` (new-file counter). -/
structure Change where
  type : String
  content : String
  ln : Option Nat
  ln1 : Option Nat
  ln2 : Option Nat
  deriving DecidableEq, Repr

/-- One hunk: the raw `@@`-header line (`content`), its changes in physical
order, and the four header numbers. -/
structure Chunk where
  content : String
  changes : List Change
  oldStart : Nat
  oldLines : Nat
  newStart : Nat
  newLines : Nat
  deriving DecidableEq, Repr

/-- One file entry of the parsed diff.  `to` is the target path after the
change (`"/dev/null"` for a deleted file, `none` when the header is absent). -/
structure File where
  «from» : Option String
  «to» : Option String
  chunks : List Chunk
  deriving DecidableEq, Repr

/-- PR metadata as fetched by `getPRDetails` (the `PRDetails` interface). -/
structure PRDetails where
  owner : String
  repo : String
  pull_number : Nat
  title : String
  description : String
  commit_id : String
  deriving DecidableEq, Repr

/-- One model finding, as typed in the source: a line-number token and a
review comment. -/
structure Finding where
  lineNumber : String
  reviewComment : String
  deriving DecidableEq, Repr

/-- One platform comment record `{body, path, line}` as built by
`createComment`.  `path` holds the runtime value of `file.to!` (the `!` is a
TypeScript type assertion with no runtime effect, so an absent target path
stays absent), and `line` holds the JavaScript number `Number(lineNumber)`,
NaN included. -/
structure CommentRec where
  body : String
  path : Option String
  line : JsNum
  deriving DecidableEq, Repr

/-! ## The diff parser

Models the parse-diff library on plain unified diffs: a `diff ` line starts a
file entry, `--- `/`+++ ` lines set the source and target paths (with the
conventional `a/`/`b/` prefixes stripped), an `@@ -a,b +c,d @@` header starts
a hunk, and within a hunk a leading `-` is a deletion, a leading `+` an
addition, and anything else a context line.  Exactly as in the library, the
deletion counter starts at the header's old start and numbers `del` and
`normal` lines, while the addition counter starts at the header's new start
and numbers `add` and `normal` lines.  (Extended git headers such as rename
or mode lines, and `\ No newline` markers, are outside the modelled subset.) -/

/-- Build the changes of one hunk from its body lines, threading the old-file
counter `o` (seeded from the header's old start) and the new-file counter `n`
(seeded from the header's new start), exactly as parse-diff's `del`, `add`
and `normal` line handlers do. -/
def parseChanges : Nat → Nat → List String → List Change
  | _, _, [] => []
  | o, n, l :: ls =>
    if strStartsWith l "-" then
      ⟨"del", l, some o, none, none⟩ :: parseChanges (o + 1) n ls
    else if strStartsWith l "+" then
      ⟨"add", l, some n, none, none⟩ :: parseChanges o (n + 1) ls
    else
      ⟨"normal", l, none, some o, some n⟩ :: parseChanges (o + 1) (n + 1) ls

/-- Parse a decimal number prefix of a character list. -/
def takeNat (cs : List Char) : Option (Nat × List Char) :=
  match cs.takeWhile (fun c => c.isDigit) with
  | [] => none
  | ds => some (digitsToNat ds, cs.dropWhile (fun c => c.isDigit))

/-- Parse a hunk header `@@ -a,b +c,d @@...` into `(a, b, c, d)`; an omitted
count defaults to 1, as in parse-diff's header regex. -/
def parseHunkHeader (l : String) : Option (Nat × Nat × Nat × Nat) :=
  if strStartsWith l "@@ -" then
    match takeNat (l.data.drop 4) with
    | none => none
    | some (os, r1) =>
      let (ol, r2) :=
        match r1 with
        | ',' :: r => (match takeNat r with | some (k, r') => (k, r') | none => (1, r))
        | _ => (1, r1)
      match r2 with
      | ' ' :: '+' :: r3 =>
        match takeNat r3 with
        | none => none
        | some (ns, r4) =>
          let (nl, r5) :=
            match r4 with
            | ',' :: r => (match takeNat r with | some (k, r') => (k, r') | none => (1, r))
            | _ => (1, r4)
          match r5 with
          | ' ' :: '@' :: '@' :: _ => some (os, ol, ns, nl)
          | _ => none
      | _ => none
  else none

/-- A line that belongs to the body of the current hunk (neither a new hunk
header nor a new file section). -/
def isBodyLine (l : String) : Bool :=
  ¬ (strStartsWith l "@@" ∨ strStartsWith l "diff " ∨ strStartsWith l "--- " ∨ strStartsWith l "+++ ")

/-- Parse the consecutive hunks of one file entry, returning them together
with the unconsumed lines. -/
def parseChunks : Nat → List String → List Chunk × List String
  | 0, ls => ([], ls)
  | _ + 1, [] => ([], [])
  | fuel + 1, l :: ls =>
    match parseHunkHeader l with
    | some (os, ol, ns, nl) =>
      let body := ls.takeWhile isBodyLine
      let rest := ls.dropWhile isBodyLine
      let (more, rest2) := parseChunks fuel rest
      (⟨l, parseChanges os ns body, os, ol, ns, nl⟩ :: more, rest2)
    | none => ([], l :: ls)

/-- Normalize a `--- `/`+++ ` header path: strip the conventional `a/` or
`b/` prefix; `/dev/null` stays as is. -/
def stripDiffPath (s : String) : String :=
  if strStartsWith s "a/" ∨ strStartsWith s "b/" then strDrop s 2 else s

/-- Parse the file entries of a diff, fuel-indexed over the line list. -/
def parseDiffAux : Nat → Option File → List String → List File
  | 0, cur, _ => (match cur with | some f => [f] | none => [])
  | _ + 1, cur, [] => (match cur with | some f => [f] | none => [])
  | fuel + 1, cur, l :: ls =>
    if strStartsWith l "diff " then
      (match cur with | some f => [f] | none => []) ++
        parseDiffAux fuel (some ⟨none, none, []⟩) ls
    else if strStartsWith l "--- " then
      match cur with
      | some f => parseDiffAux fuel (some { f with «from» := some (stripDiffPath (strDrop l 4)) }) ls
      | none => parseDiffAux fuel (some ⟨some (stripDiffPath (strDrop l 4)), none, []⟩) ls
    else if strStartsWith l "+++ " then
      match cur with
      | some f => parseDiffAux fuel (some { f with «to» := some (stripDiffPath (strDrop l 4)) }) ls
      | none => parseDiffAux fuel (some ⟨none, some (stripDiffPath (strDrop l 4)), []⟩) ls
    else if (parseHunkHeader l).isSome then
      let (chunks, rest) := parseChunks (ls.length + 1) (l :: ls)
      match cur with
      | some f => (match rest with
          | [] => [{ f with chunks := f.chunks ++ chunks }]
          | _ => parseDiffAux fuel (some { f with chunks := f.chunks ++ chunks }) rest)
      | none => (match rest with
          | [] => [⟨none, none, chunks⟩]
          | _ => parseDiffAux fuel (some ⟨none, none, chunks⟩) rest)
    else
      parseDiffAux fuel cur ls

/-- Models the parse-diff library entry point on the subset described above:
raw unified-diff text to an ordered list of file entries.  Blank lines
(notably the one a trailing newline produces) are skipped; hunks with blank
body lines are outside the modelled subset. -/
def parseDiff (raw : String) : List File :=
  parseDiffAux (strSplit raw '\n').length none ((strSplit raw '\n').filter (fun l => l ≠ ""))

/-! ## Review Prompt Builder (`createPrompt`, src/main.ts lines 97-142)

The module-level configuration constant `EXTRA_INSTRUCTIONS` (read once from
the action input) is threaded as an explicit parameter. -/

/-- The per-line annotation inside `createPrompt`: add/del lines are prefixed
with `change.ln`, normal (context) lines with `change.ln1`, and a missing or
zero (JavaScript-falsy) number degrades to the empty prefix; the annotated
line is `lineNumber ++ " " ++ content`. -/
def annotateChange (change : Change) : String :=
  let lineNumber : String :=
    if change.type = "add" ∨ change.type = "del" then
      match change.ln with
      | some n => if n = 0 then "" else toString n
      | none => ""
    else if change.type = "normal" then
      match change.ln1 with
      | some n => if n = 0 then "" else toString n
      | none => ""
    else ""
  lineNumber ++ " " ++ change.content

/-- The `diffContent` built inside `createPrompt`: every change of the chunk
annotated, in physical order, joined with newlines. -/
def diffContentOf (chunk : Chunk) : String :=
  joinWith "\n" (chunk.changes.map annotateChange)

/-- The prompt string built by `createPrompt` in src/main.ts: the fixed
reviewer policy, the caller-supplied `EXTRA_INSTRUCTIONS` extension, the PR
title and description, and the chunk's header plus annotated diff text. -/
def createPrompt (extraInstructions : String) (file : File) (chunk : Chunk)
    (prDetails : PRDetails) : String :=
  "Your task is to review pull requests. Instructions:\n- Do not give positive comments or compliments.\n- Provide comments and suggestions ONLY if there is something to improve, otherwise \"reviews\" should be an empty array.\n- Write the comment in GitHub Markdown format.\n- Use the given description only for the overall context and only comment the code.\n- IMPORTANT: NEVER suggest adding comments to the code.\n- never comment on file formatting and linting issues\n- Always propose a code solution to the issue.\n- Don\x27t check package imports.\n- Don\x27t suggest adding comments.\n"
    ++ extraInstructions
    ++ "\n\nReview the following code diff in the file \""
    ++ jsTemplate file.to
    ++ "\" and take the pull request title and description into account when writing the response.\n  \nPull request title: "
    ++ prDetails.title
    ++ "\nPull request description:\n\n---\n"
    ++ prDetails.description
    ++ "\n---\n\nGit diff to review:\n\n```diff\n"
    ++ chunk.content
    ++ "\n"
    ++ diffContentOf chunk
    ++ "\n```\n"

/-- One chat message of the Java/Spring variant's prompt. -/
structure ChatMessage where
  role : String
  content : String
  deriving DecidableEq, Repr

/-- The fixed system-message text of the Java/Spring-specialized
`createPrompt` variant (src/unnamed/part_000 lines 109-147).  Note it does
not reference the `EXTRA_INSTRUCTIONS` extension. -/
def springSystemContent : String :=
  "You are an expert AI code reviewer specializing in Java, Spring, and SQL. You will be provided with a pull request (PR) title, PR description, and the Git diff. Your task is to review the changes in the Git diff and identify potential issues, while demonstrating your in-depth knowledge of Spring.\n\n- Focus exclusively on areas in the code where there might be a problem, but avoid mentioning issues that a compiler would catch, such as incorrect function calls.\n- If the code is satisfactory, return an empty array—do not include any positive comments or compliments.\n- The PR title and description are for context only and should not be commented on.\n- Do not comment on file formatting, linting issues, suggest adding comments, or issues like null values in `getReferenceById` which never returns null but throws an exception.\n- All comments should be written in GitHub Markdown format.\n\n# Output Format\n\nReturn output in JSON format with an array containing comment objects. Each comment object should include:\n- `lineNumber`: the line number of the issue.\n- `reviewComment`: details of the concern in GitHub Markdown format.\n\n# Examples\n\n**Input:**\n- PR Title: \"Fix login retry logic\"\n- PR Description: \"Corrects the retry logic to prevent endless loops.\"\n- Git Diff:\n  ```java\n  @@ -10,5 +10,7 @@\n  while (currentTry > MAX_TRIES) \x7b\n      // retry logic\n  \x7d\n  ```\n\n**Output:**\n```\n[\n  \x7b\n    \"lineNumber\": 2,\n    \"reviewComment\": \"The condition `currentTry > MAX_TRIES` is incorrect for the retry logic. It should be `currentTry < MAX_TRIES` to limit the number of tries.\"\n  \x7d\n]\n```\n\n(Note: Real examples may vary in length and complexity. Use placeholders to represent the context and structure of comments.)\n`"

/-- The prompt of the Java/Spring variant's `createPrompt`: a fixed system
message plus a user message carrying PR title, description and the annotated
chunk.  The caller-supplied extension text does not occur in it. -/
def createPromptSpring (chunk : Chunk) (prDetails : PRDetails) : List ChatMessage :=
  [⟨"system", springSystemContent⟩,
   ⟨"user",
    "Please review my PR:\n\nThe title is:\n"
      ++ prDetails.title
      ++ "\n\nThe description is: \n---\n"
      ++ prDetails.description
      ++ "\n---\n\nThe git diff is:\n```diff\n"
      ++ chunk.content
      ++ "\n"
      ++ diffContentOf chunk
      ++ "\n```"⟩]

/-! ## Model Invoker (`getAIResponse`, src/main.ts lines 144-213)

The OpenAI chat call is an external effect; its outcome is modelled
explicitly: either the awaited call (or any statement before the return
inside the `try` block) throws, or it yields choice 0's finish reason and
message content (`none` for a null/absent content). -/

/-- Outcome of the `openai.chat.completions.create` call. -/
inductive ChatOutcome where
  | throws : ChatOutcome
  | ok (finishReason : String) (content : Option String) : ChatOutcome

/-- The runtime value `getAIResponse` resolves to.  Its declared type is
`Array<Finding> | null`, but `JSON.parse(res).reviews` can also be
`undefined` (absent field) or an arbitrary JSON value, so the value space is
kept explicit. -/
inductive AIResponse where
  | jsNull : AIResponse
  | jsUndefined : AIResponse
  | val (j : Json) : AIResponse

/-- JavaScript truthiness of an `AIResponse` value, as tested by
`if (aiResponse)` in `analyzeCode`: `null` and `undefined` are falsy; an
array — even an empty one — is truthy. -/
def AIResponse.truthy : AIResponse → Bool
  | .jsNull => false
  | .jsUndefined => false
  | .val j => jsonTruthy j

/-- Models `getAIResponse`: a thrown transport/parsing exception is caught
and yields null; a finish reason of "length" is logged and yields null;
otherwise the trimmed message content (defaulting to "\x7b\x7d" when null,
absent, or JavaScript-falsy after trimming) is parsed and the `reviews`
field of the result is returned.  A `JSON.parse` failure, and the
`TypeError` thrown by accessing `.reviews` on a parsed `null`, are caught by
the same `catch` and also yield null. -/
def getAIResponse : ChatOutcome → AIResponse
  | .throws => .jsNull
  | .ok finishReason content =>
    if finishReason = "length" then .jsNull
    else
      let res : String :=
        match content with
        | none => "\x7b\x7d"
        | some s => if trimStr s = "" then "\x7b\x7d" else trimStr s
      match jsonParse res with
      | none => .jsNull
      | some Json.null => .jsNull
      | some parsed =>
        match parsed.getField "reviews" with
        | none => .jsUndefined
        | some v => .val v

/-! ## Comment Mapper (`createComment`, src/main.ts lines 215-241) -/

/-- Models `createComment`: each finding's `lineNumber` token is converted
with `Number(...)`, and the guard `lineNumber != null` decides whether the
comment is pushed.  The `chunk` parameter is accepted and ignored, as in the
source. -/
def createComment (file : File) (_chunk : Chunk) (aiResponses : List Finding) :
    List CommentRec :=
  aiResponses.foldl
    (fun comments aiResponse =>
      let lineNumber := strToNumber aiResponse.lineNumber
      if lineNumber.looseNeNull then
        comments ++ [⟨aiResponse.reviewComment, file.to, lineNumber⟩]
      else comments)
    []

/-! ## Review Aggregator (`analyzeCode`, src/main.ts lines 75-95)

The model call is abstracted as an oracle `ai : String → Option (List
Finding)` at `getAIResponse`'s declared interface: `none` models a falsy
response value (null or undefined, the recovered failure cases), `some rs` a
truthy findings array.  `if (newComments)` in the source is always true
because `createComment` returns an array, and arrays are truthy. -/

/-- Models `analyzeCode`: iterate files then chunks, skip deleted files
(`file.to === "/dev/null"`), build the prompt, query the model, and append
the mapped comments of every truthy response. -/
def analyzeCode (ai : String → Option (List Finding)) (extraInstructions : String)
    (parsedDiff : List File) (prDetails : PRDetails) : List CommentRec :=
  parsedDiff.foldl
    (fun comments file =>
      if file.to = some "/dev/null" then comments
      else
        file.chunks.foldl
          (fun comments chunk =>
            match ai (createPrompt extraInstructions file chunk prDetails) with
            | some aiResponse => comments ++ createComment file chunk aiResponse
            | none => comments)
          comments)
    []

/-- The (file, chunk) pairs `analyzeCode` processes, in file-then-chunk
order: every chunk of every non-deleted file. -/
def analyzeCodeCalls (parsedDiff : List File) : List (File × Chunk) :=
  parsedDiff.flatMap
    (fun file =>
      if file.to = some "/dev/null" then []
      else file.chunks.map (fun chunk => (file, chunk)))

/-- The comments one (file, chunk) pair contributes: the mapped findings of
a truthy model response, nothing for a falsy one. -/
def chunkComments (ai : String → Option (List Finding)) (extraInstructions : String)
    (prDetails : PRDetails) (fc : File × Chunk) : List CommentRec :=
  match ai (createPrompt extraInstructions fc.1 fc.2 prDetails) with
  | some aiResponse => createComment fc.1 fc.2 aiResponse
  | none => []

/-- The prompts `analyzeCode` hands to the model, in order. -/
def analyzeCodePrompts (extraInstructions : String) (parsedDiff : List File)
    (prDetails : PRDetails) : List String :=
  (analyzeCodeCalls parsedDiff).map
    (fun fc => createPrompt extraInstructions fc.1 fc.2 prDetails)

/-! ## File Filter (`main`, src/main.ts lines 292-302) and the minimatch model

`minimatch` is the library glob matcher the source calls with default
options.  It is modelled for patterns made of literal characters, `*`, `?`
and the `**` globstar segment: the pattern and the path are split on `/`,
a `*` or `?` never crosses a `/`, a `**` segment matches zero or more path
segments, and (as with default minimatch options) a wildcard never matches a
leading dot in a segment.  Brace expansion, character classes, extglobs and
`!` negation are outside the modelled subset (the pipeline's exclusion
patterns do not use them). -/

/-- Fuel-indexed single-segment glob match (`*`, `?`, literals). -/
def matchChars : Nat → List Char → List Char → Bool
  | 0, _, _ => false
  | fuel + 1, p, s =>
    match p, s with
    | [], [] => true
    | '*' :: pr, [] => matchChars fuel pr []
    | '*' :: pr, c :: sr => matchChars fuel pr (c :: sr) || matchChars fuel ('*' :: pr) sr
    | '?' :: pr, _ :: sr => matchChars fuel pr sr
    | pc :: pr, c :: sr => pc = c && matchChars fuel pr sr
    | _, _ => false

/-- Match one path segment against one pattern segment, with the default
minimatch rule that a segment starting with `.` is matched only by a pattern
segment that itself starts with a literal `.`. -/
def segMatch (p s : List Char) : Bool :=
  match s with
  | '.' :: _ =>
    match p with
    | '.' :: _ => matchChars (p.length + s.length + 1) p s
    | _ => false
  | _ => matchChars (p.length + s.length + 1) p s

/-- Fuel-indexed segment-list match with `**` support. -/
def matchSegs : Nat → List (List Char) → List (List Char) → Bool
  | 0, _, _ => false
  | fuel + 1, ps, ss =>
    match ps, ss with
    | [], [] => true
    | [], _ :: _ => false
    | p :: pr, [] => if p = ['*', '*'] then matchSegs fuel pr [] else false
    | p :: pr, s :: sr =>
      if p = ['*', '*'] then
        matchSegs fuel pr (s :: sr) ||
          (if s.head? = some '.' then false else matchSegs fuel (p :: pr) sr)
      else segMatch p s && matchSegs fuel pr sr

/-- Models the minimatch library call `minimatch(path, pattern)` with
default options, on the subset described above. -/
def minimatch (path pattern : String) : Bool :=
  let ps := (strSplit pattern '/').map String.data
  let ss := (strSplit path '/').map String.data
  matchSegs (ps.length + ss.length + 1) ps ss

/-- The `excludePatterns` computation of `main`: the comma-separated action
input split on commas, each entry trimmed, empty entries removed. -/
def excludePatternsOf (input : String) : List String :=
  ((strSplit input ',').map trimStr).filter (fun s => s.length > 0)

/-- The `filteredDiff` computation of `main`: keep exactly the file entries
whose target path (defaulted to "" when absent) matches none of the
exclusion patterns. -/
def filteredDiffOf (parsedDiff : List File) (excludePatterns : List String) :
    List File :=
  parsedDiff.filter
    (fun file => ! excludePatterns.any (fun pattern => minimatch (file.to.getD "") pattern))

/-! ## The entry point (`main`, src/main.ts lines 267-316)

The external effects of `main` are made explicit: `action` is the event
payload's action field, `diff` the value `getDiff` would return, and the
outcome records which collaborators were reached — the prompts handed to the
model and the batched submissions handed to `createReviewComment`. -/

/-- One batched review submission, as passed to
`octokit.pulls.createReview` by `createReviewComment`. -/
structure Submission where
  owner : String
  repo : String
  pull_number : Nat
  commit_id : String
  comments : List CommentRec
  deriving DecidableEq, Repr

/-- Terminal state of one run of `main`. -/
inductive RunResult where
  | unsupportedEvent : RunResult
  | noDiff : RunResult
  | noComments : RunResult
  | submitted : RunResult
  deriving DecidableEq, Repr

/-- Observable outcome of one run of `main`: the terminal state, whether the
diff fetch collaborator was invoked, the prompts sent to the model, and the
review submissions made. -/
structure RunOutcome where
  result : RunResult
  diffFetched : Bool
  promptsSent : List String
  submissions : List Submission
  deriving DecidableEq, Repr

/-- Models `main`: an action other than "opened" or "synchronize" logs and
returns before the diff is fetched; a null or empty (falsy) diff ends the
run; otherwise the diff is parsed, filtered, analyzed, and a single batched
submission is made exactly when the aggregated comment list is non-empty. -/
def runMain (action : String) (diff : Option String) (excludeInput : String)
    (extraInstructions : String) (ai : String → Option (List Finding))
    (prDetails : PRDetails) : RunOutcome :=
  if action = "opened" ∨ action = "synchronize" then
    match diff with
    | none => ⟨.noDiff, true, [], []⟩
    | some d =>
      if d = "" then ⟨.noDiff, true, [], []⟩
      else
        let parsedDiff := parseDiff d
        let excludePatterns := excludePatternsOf excludeInput
        let filteredDiff := filteredDiffOf parsedDiff excludePatterns
        let comments := analyzeCode ai extraInstructions filteredDiff prDetails
        if comments.length > 0 then
          ⟨.submitted, true, analyzeCodePrompts extraInstructions filteredDiff prDetails,
            [⟨prDetails.owner, prDetails.repo, prDetails.pull_number,
              prDetails.commit_id, comments⟩]⟩
        else
          ⟨.noComments, true, analyzeCodePrompts extraInstructions filteredDiff prDetails, []⟩
  else ⟨.unsupportedEvent, false, [], []⟩

/-! ## Auxiliary definitions for the statements -/

/-- Substring test on lists (used to state that a text occurs verbatim, or
does not occur, in a prompt). -/
def listContains {α : Type} [DecidableEq α] : List α → List α → Bool
  | s, sub =>
    sub.isPrefixOf s ||
      match s with
      | [] => false
      | _ :: t => listContains t sub

/-- Substring test on strings. -/
def strContains (s sub : String) : Bool :=
  listContains s.data sub.data

/-- The annotation prefix `createPrompt` produces for a resolved counter
value: the decimal numeral, degrading to the empty string for the
JavaScript-falsy value 0. -/
def numStr (k : Nat) : String :=
  if k = 0 then "" else toString k

/-- Relational statement of per-line prompt annotation against the diff
parser's counters: given the old-file counter `o` and the new-file counter
`n` at the start of a hunk body, each physical line is annotated in order —
a removed line (leading `-`) with the old-file counter, an added line
(leading `+`) with the new-file counter, and a context line with the
old-file (left-side) counter — each counter advancing over the lines it
numbers. -/
inductive ChunkAnnots : Nat → Nat → List String → List String → Prop
  | nil (o n : Nat) : ChunkAnnots o n [] []
  | del (o n : Nat) (l : String) (ls anns : List String) :
      strStartsWith l "-" = true →
      ChunkAnnots (o + 1) n ls anns →
      ChunkAnnots o n (l :: ls) ((numStr o ++ " " ++ l) :: anns)
  | add (o n : Nat) (l : String) (ls anns : List String) :
      strStartsWith l "-" = false →
      strStartsWith l "+" = true →
      ChunkAnnots o (n + 1) ls anns →
      ChunkAnnots o n (l :: ls) ((numStr n ++ " " ++ l) :: anns)
  | context (o n : Nat) (l : String) (ls anns : List String) :
      strStartsWith l "-" = false →
      strStartsWith l "+" = false →
      ChunkAnnots (o + 1) (n + 1) ls anns →
      ChunkAnnots o n (l :: ls) ((numStr o ++ " " ++ l) :: anns)

/-- The fixed reviewer-policy text of the primary builder, up to the point
where the caller-supplied extension is inserted. -/
def fixedPolicy : String :=
  "Your task is to review pull requests. Instructions:\n- Do not give positive comments or compliments.\n- Provide comments and suggestions ONLY if there is something to improve, otherwise \"reviews\" should be an empty array.\n- Write the comment in GitHub Markdown format.\n- Use the given description only for the overall context and only comment the code.\n- IMPORTANT: NEVER suggest adding comments to the code.\n- never comment on file formatting and linting issues\n- Always propose a code solution to the issue.\n- Don\x27t check package imports.\n- Don\x27t suggest adding comments.\n"

/-- Modelled from the spec: the claimed annotation rule in which "added and
removed lines carry the line number in the *new* file" — both `add` and
`del` lines are numbered from the new-file counter.  The diff parser itself
(`parseChanges`) instead numbers `del` lines from the old-file counter; the
two are compared to settle the claim. -/
def parseChangesSpecNewFile : Nat → Nat → List String → List Change
  | _, _, [] => []
  | o, n, l :: ls =>
    if strStartsWith l "-" then
      ⟨"del", l, some n, none, none⟩ :: parseChangesSpecNewFile (o + 1) n ls
    else if strStartsWith l "+" then
      ⟨"add", l, some n, none, none⟩ :: parseChangesSpecNewFile o (n + 1) ls
    else
      ⟨"normal", l, none, some o, some n⟩ :: parseChangesSpecNewFile (o + 1) (n + 1) ls

/-! ## Concrete sample values for witnesses and counterexamples -/

/-- A sample PR context. -/
def samplePR : PRDetails :=
  ⟨"octo", "repo", 1, "Add feature", "Adds a feature", "abc123"⟩

/-- A sample chunk, built by the diff parser's counters from a hunk at
old line 4 / new line 4. -/
def sampleChunk : Chunk :=
  ⟨"@@ -4,3 +4,4 @@", parseChanges 4 4 [" ctx1", " ctx2", "+x = 1", " ctx3"], 4, 3, 4, 4⟩

/-- A sample reviewable file entry. -/
def sampleFile : File := ⟨some "a.py", some "a.py", [sampleChunk]⟩

/-- A sample deletion entry: target path `/dev/null`. -/
def deletedFile : File := ⟨some "gone.py", some "/dev/null", [sampleChunk]⟩

/-- A file entry whose path matches `**/*.md` but not `*.md`. -/
def mdFile : File := ⟨some "docs/readme.md", some "docs/readme.md", [sampleChunk]⟩

/-- A raw diff whose single hunk starts at old line 5 and new line 1, so the
old-file and new-file counters differ on its removed line. -/
def c4raw : String :=
  "diff --git a/f.txt b/f.txt\n--- a/f.txt\n+++ b/f.txt\n@@ -5,1 +1,1 @@\n-old line\n+new line\n"

/-- A sentinel extension text that occurs nowhere in the Java/Spring
variant's fixed prompt text nor in the sample PR context. -/
def extSentinel : String := "ZZ-POLICY-EXTENSION-SENTINEL"

/-- A constantly-null model oracle (every chat call fails or is falsy). -/
def nullOracle : String → Option (List Finding) := fun _ => none

/-! ## Structure lemmas -/

/-- A left fold that appends a singleton per element is a map. -/
theorem foldl_append_singleton {α β : Type} (g : α → β) :
    ∀ (l : List α) (acc : List β),
      l.foldl (fun cs r => cs ++ [g r]) acc = acc ++ l.map g := by
  intro l
  induction l with
  | nil => intro acc; simp
  | cons r rest ih => intro acc; simp [ih]

/-- `createComment` maps every finding to a comment record carrying the
file's target path and the `Number(...)` conversion of the finding's token:
the `lineNumber != null` guard never rejects, so no finding is dropped. -/
theorem createComment_eq_map (file : File) (chunk : Chunk) (rs : List Finding) :
    createComment file chunk rs
      = rs.map (fun r => ⟨r.reviewComment, file.to, strToNumber r.lineNumber⟩) := by
  have h := foldl_append_singleton
    (fun r : Finding => (⟨r.reviewComment, file.to, strToNumber r.lineNumber⟩ : CommentRec))
    rs []
  simpa [createComment, JsNum.looseNeNull] using h

/-- The inner chunk loop of `analyzeCode`, expressed as a flat map over the
chunk list. -/
theorem analyzeCode_inner (ai : String → Option (List Finding)) (extra : String)
    (pr : PRDetails) (file : File) :
    ∀ (chunks : List Chunk) (acc : List CommentRec),
      chunks.foldl
        (fun comments chunk =>
          match ai (createPrompt extra file chunk pr) with
          | some aiResponse => comments ++ createComment file chunk aiResponse
          | none => comments)
        acc
      = acc ++ chunks.flatMap (fun chunk => chunkComments ai extra pr (file, chunk)) := by
  intro chunks
  induction chunks with
  | nil => intro acc; simp
  | cons c cs ih =>
    intro acc
    cases h : ai (createPrompt extra file c pr) with
    | none => simp [ih, chunkComments, h]
    | some rs => simp [ih, chunkComments, h]

/-- `analyzeCode` is the concatenation, in file-then-chunk order, of the
per-(file, chunk) mapper outputs. -/
theorem analyzeCode_eq_flatMap (ai : String → Option (List Finding)) (extra : String)
    (files : List File) (pr : PRDetails) :
    analyzeCode ai extra files pr
      = (analyzeCodeCalls files).flatMap (chunkComments ai extra pr) := by
  suffices h : ∀ (files : List File) (acc : List CommentRec),
      files.foldl
        (fun comments file =>
          if file.to = some "/dev/null" then comments
          else
            file.chunks.foldl
              (fun comments chunk =>
                match ai (createPrompt extra file chunk pr) with
                | some aiResponse => comments ++ createComment file chunk aiResponse
                | none => comments)
              comments)
        acc
      = acc ++ (analyzeCodeCalls files).flatMap (chunkComments ai extra pr) by
    simpa [analyzeCode] using h files []
  intro files
  induction files with
  | nil => intro acc; simp [analyzeCodeCalls]
  | cons f fs ih =>
    intro acc
    simp only [List.foldl_cons]
    rw [ih]
    by_cases hdel : f.to = some "/dev/null"
    · simp [hdel, analyzeCodeCalls]
    · rw [if_neg hdel, analyzeCode_inner]
      simp [analyzeCodeCalls, hdel, List.flatMap_map]

/-- The diff parser's change list satisfies the counter-annotation relation:
`del` lines are numbered by the old-file counter, `add` lines by the
new-file counter, context lines by the old-file counter. -/
theorem parseChanges_annots (ls : List String) :
    ∀ (o n : Nat), ChunkAnnots o n ls ((parseChanges o n ls).map annotateChange) := by
  induction ls with
  | nil => intro o n; exact ChunkAnnots.nil o n
  | cons l rest ih =>
    intro o n
    by_cases hdel : strStartsWith l "-"
    · have : (parseChanges o n (l :: rest)).map annotateChange
          = (numStr o ++ " " ++ l) :: (parseChanges (o + 1) n rest).map annotateChange := by
        simp [parseChanges, hdel, annotateChange, numStr]
      rw [this]
      exact ChunkAnnots.del o n l rest _ (by simpa using hdel) (ih (o + 1) n)
    · by_cases hadd : strStartsWith l "+"
      · have : (parseChanges o n (l :: rest)).map annotateChange
            = (numStr n ++ " " ++ l) :: (parseChanges o (n + 1) rest).map annotateChange := by
          simp [parseChanges, hdel, hadd, annotateChange, numStr]
        rw [this]
        exact ChunkAnnots.add o n l rest _ (by simpa using hdel) (by simpa using hadd)
          (ih o (n + 1))
      · have : (parseChanges o n (l :: rest)).map annotateChange
            = (numStr o ++ " " ++ l) :: (parseChanges (o + 1) (n + 1) rest).map annotateChange := by
          simp [parseChanges, hdel, hadd, annotateChange, numStr]
        rw [this]
        exact ChunkAnnots.context o n l rest _ (by simpa using hdel) (by simpa using hadd)
          (ih (o + 1) (n + 1))

/-! ## Claim C1 -/

/-- C1: contrary to the claim, a Finding whose `lineNumber` token fails to
parse to a finite number is NOT dropped by `createComment`: `Number("not-a-number")`
is NaN, and the guard `lineNumber != null` is true for every JavaScript
number (NaN included), so the mapper pushes a CommentRecord with line NaN —
the error-logging else branch is unreachable.  At the concrete input below,
the bad finding yields a record alongside its sibling instead of zero
records. -/
theorem c1_unparseable_token_not_dropped :
    createComment sampleFile sampleChunk
        [⟨"not-a-number", "Rename this."⟩, ⟨"7", "Use a constant."⟩]
      = [⟨"Rename this.", some "a.py", JsNum.nan⟩,
         ⟨"Use a constant.", some "a.py", JsNum.num 7⟩] := by
  decide

/-! ## Claim C2 -/

/-- C2 counterexample: a parsed FileEntry whose target path is `/dev/null`
DOES appear in the File Filter's output (`filteredDiff` in `main` filters
only on exclusion patterns, not on deletions), refuting the claim that such
an entry never appears there. -/
theorem c2_deletion_in_filter_output :
    deletedFile.to = some "/dev/null"
      ∧ filteredDiffOf [deletedFile] (excludePatternsOf "") = [deletedFile] := by
  constructor
  · rfl
  · decide

/-- C2 (amended): a deletion entry can survive the exclusion filter, but the
Review Aggregator skips it: `analyzeCode` processes exactly the
(file, chunk) pairs of `analyzeCodeCalls`, the prompts handed to the model
are exactly the prompts of those pairs, and no pair has target path
`/dev/null` — so no chunk of a deletion entry is ever passed to the Prompt
Builder or the model. -/
theorem c2_deletion_chunks_never_prompted :
    ∀ (ai : String → Option (List Finding)) (extra : String) (files : List File)
      (pr : PRDetails),
      analyzeCode ai extra files pr = (analyzeCodeCalls files).flatMap (chunkComments ai extra pr)
      ∧ analyzeCodePrompts extra files pr
          = (analyzeCodeCalls files).map (fun fc => createPrompt extra fc.1 fc.2 pr)
      ∧ ∀ fc ∈ analyzeCodeCalls files, fc.1.to ≠ some "/dev/null" := by
  intro ai extra files pr
  refine ⟨analyzeCode_eq_flatMap ai extra files pr, rfl, ?_⟩
  intro fc hfc
  simp only [analyzeCodeCalls, List.mem_flatMap] at hfc
  obtain ⟨file, _, hmem⟩ := hfc
  by_cases h : file.to = some "/dev/null"
  · simp [h] at hmem
  · simp only [h, if_false, List.mem_map] at hmem
    obtain ⟨c, _, rfl⟩ := hmem
    exact h

/-- C2 witness: the amended theorem applied to a concrete file list holding
a deletion entry and a reviewable entry. -/
theorem c2_witness :
    (sampleFile, sampleChunk).1.to ≠ some "/dev/null" :=
  (c2_deletion_chunks_never_prompted nullOracle "" [deletedFile, sampleFile] samplePR).2.2
    (sampleFile, sampleChunk) (by decide)

/-! ## Claim C7 -/

/-- C7: `analyzeCode` visits (FileEntry, Chunk) pairs in file-then-chunk
order (every chunk of every non-deleted file, files in input order, chunks
in file order), returns the concatenation of the per-chunk mapper outputs in
that same order, and every CommentRecord carries the target path of the
FileEntry whose chunk produced it. -/
theorem c7_aggregation_order_and_paths :
    ∀ (ai : String → Option (List Finding)) (extra : String) (files : List File)
      (pr : PRDetails),
      analyzeCode ai extra files pr = (analyzeCodeCalls files).flatMap (chunkComments ai extra pr)
      ∧ analyzeCodeCalls files
          = files.flatMap
              (fun file =>
                if file.to = some "/dev/null" then []
                else file.chunks.map (fun chunk => (file, chunk)))
      ∧ ∀ (f : File) (c : Chunk) (rs : List Finding) (m : CommentRec),
          m ∈ createComment f c rs → m.path = f.to := by
  intro ai extra files pr
  refine ⟨analyzeCode_eq_flatMap ai extra files pr, rfl, ?_⟩
  intro f c rs m hm
  rw [createComment_eq_map] at hm
  simp only [List.mem_map] at hm
  obtain ⟨r, _, rfl⟩ := hm
  rfl

/-- C7 witness: a concrete mapped comment carries the producing file's
target path. -/
theorem c7_witness :
    (⟨"Use a constant.", some "a.py", JsNum.num 7⟩ : CommentRec).path = sampleFile.to :=
  (c7_aggregation_order_and_paths nullOracle "" [sampleFile] samplePR).2.2
    sampleFile sampleChunk [⟨"7", "Use a constant."⟩]
    ⟨"Use a constant.", some "a.py", JsNum.num 7⟩ (by decide)

/-! ## Claim C3 -/

/-- C3: a model response whose finish reason is "length", a thrown
transport exception, and a content whose `JSON.parse` fails each make
`getAIResponse` return null; null is falsy, a falsy response contributes no
comments for its chunk, and `analyzeCode` remains the concatenation of the
per-chunk contributions, so the remaining chunks and files are still
processed. -/
theorem c3_failures_degrade_to_null :
    (∀ content : Option String,
        getAIResponse (ChatOutcome.ok "length" content) = AIResponse.jsNull)
    ∧ getAIResponse ChatOutcome.throws = AIResponse.jsNull
    ∧ (∀ finishReason s : String, finishReason ≠ "length" →
        jsonParse (if trimStr s = "" then "\x7b\x7d" else trimStr s) = none →
        getAIResponse (ChatOutcome.ok finishReason (some s)) = AIResponse.jsNull)
    ∧ AIResponse.truthy AIResponse.jsNull = false
    ∧ (∀ (ai : String → Option (List Finding)) (extra : String) (pr : PRDetails)
        (fc : File × Chunk),
        ai (createPrompt extra fc.1 fc.2 pr) = none → chunkComments ai extra pr fc = [])
    ∧ (∀ (ai : String → Option (List Finding)) (extra : String) (files : List File)
        (pr : PRDetails),
        analyzeCode ai extra files pr
          = (analyzeCodeCalls files).flatMap (chunkComments ai extra pr)) := by
  refine ⟨fun content => rfl, rfl, ?_, rfl, ?_, analyzeCode_eq_flatMap⟩
  · intro finishReason s h1 h2
    simp only [getAIResponse, if_neg h1]
    rw [h2]
  · intro ai extra pr fc h
    simp [chunkComments, h]

/-- C3 witness: the theorem applied to a non-JSON content and a chunk whose
oracle response is null. -/
theorem c3_witness :
    getAIResponse (ChatOutcome.ok "stop" (some "not json")) = AIResponse.jsNull
      ∧ chunkComments nullOracle "" samplePR (sampleFile, sampleChunk) = [] :=
  ⟨c3_failures_degrade_to_null.2.2.1 "stop" "not json" (by decide) rfl,
   c3_failures_degrade_to_null.2.2.2.2.1 nullOracle "" samplePR
     (sampleFile, sampleChunk) rfl⟩

/-! ## Claim C10 -/

/-- C10: for a successful, non-truncated call with empty or whitespace-only
message content, the content defaults to the string "\x7b\x7d", whose parse
has no `reviews` field, so `getAIResponse` returns undefined; undefined is
falsy, so the chunk contributes zero CommentRecords and the run is not
aborted. -/
theorem c10_empty_content_defaults :
    (∀ finishReason s : String, finishReason ≠ "length" → trimStr s = "" →
        getAIResponse (ChatOutcome.ok finishReason (some s)) = AIResponse.jsUndefined)
    ∧ (∀ finishReason : String, finishReason ≠ "length" →
        getAIResponse (ChatOutcome.ok finishReason none) = AIResponse.jsUndefined)
    ∧ AIResponse.truthy AIResponse.jsUndefined = false
    ∧ (∀ (ai : String → Option (List Finding)) (extra : String) (pr : PRDetails)
        (fc : File × Chunk),
        ai (createPrompt extra fc.1 fc.2 pr) = none → chunkComments ai extra pr fc = []) := by
  refine ⟨?_, ?_, rfl, ?_⟩
  · intro finishReason s h1 h2
    simp only [getAIResponse, if_neg h1, h2]
    rfl
  · intro finishReason h1
    simp only [getAIResponse, if_neg h1]
    rfl
  · intro ai extra pr fc h
    simp [chunkComments, h]

/-- C10 witness: the theorem applied to a whitespace-only content and a
chunk whose oracle response is falsy. -/
theorem c10_witness :
    getAIResponse (ChatOutcome.ok "stop" (some "   ")) = AIResponse.jsUndefined
      ∧ chunkComments nullOracle "" samplePR (sampleFile, sampleChunk) = [] :=
  ⟨c10_empty_content_defaults.1 "stop" "   " (by decide) (by decide),
   c10_empty_content_defaults.2.2.2 nullOracle "" samplePR
     (sampleFile, sampleChunk) rfl⟩

/-! ## Claim C4 -/

/-- C4 counterexample: on a hunk whose old start is 5 and new start is 1,
the builder annotates the removed line with "5" — the old-file counter —
while the spec-claimed new-file numbering would annotate it with "1"; the
two annotations differ, refuting the claim that removed lines carry the
line number in the new file. -/
theorem c4_removed_line_carries_old_number :
    (parseDiff c4raw).map (fun f => f.chunks.map diffContentOf)
        = [[ "5 -old line\n1 +new line" ]]
      ∧ joinWith "\n" ((parseChangesSpecNewFile 5 1 ["-old line", "+new line"]).map
          annotateChange)
        = "1 -old line\n1 +new line"
      ∧ ("5 -old line\n1 +new line" : String) ≠ "1 -old line\n1 +new line" := by
  refine ⟨by decide, by decide, by decide⟩

/-- C4 (amended): the Prompt Builder annotates each diff line in physical
order, newline-joined; added lines carry the new-file counter, removed
lines carry the OLD-file counter, and context lines carry the left-side
(old-file) counter of the hunk header, each counter advancing over the
lines it numbers; a zero (falsy) counter and an absent line number both
degrade to an empty-string annotation rather than an error. -/
theorem c4_annotation_rule :
    (∀ (o n : Nat) (ls : List String),
        ChunkAnnots o n ls ((parseChanges o n ls).map annotateChange))
    ∧ (∀ chunk : Chunk,
        diffContentOf chunk = joinWith "\n" (chunk.changes.map annotateChange))
    ∧ (∀ t l : String, annotateChange ⟨t, l, none, none, none⟩ = " " ++ l)
    ∧ (∀ l : String, annotateChange ⟨"add", l, some 0, none, none⟩ = " " ++ l) := by
  refine ⟨fun o n ls => parseChanges_annots ls o n, fun chunk => rfl, ?_, ?_⟩
  · intro t l
    by_cases h1 : t = "add" ∨ t = "del"
    · simp [annotateChange, h1]
    · by_cases h2 : t = "normal" <;> simp [annotateChange, h1, h2]
  · intro l
    simp [annotateChange]

/-! ## Claim C5 -/

/-- C5: with a supported event action and a non-empty diff, `main` makes no
submission and ends in the clean terminal state when the aggregated comment
list is empty, and makes exactly one batched submission — carrying the PR
coordinates, the anchor commit and the full comment list — when it is
non-empty. -/
theorem c5_submission_decision :
    ∀ (action d excl extra : String) (ai : String → Option (List Finding))
      (pr : PRDetails),
      (action = "opened" ∨ action = "synchronize") → d ≠ "" →
      (analyzeCode ai extra (filteredDiffOf (parseDiff d) (excludePatternsOf excl)) pr = [] →
        (runMain action (some d) excl extra ai pr).submissions = []
        ∧ (runMain action (some d) excl extra ai pr).result = RunResult.noComments)
      ∧ (analyzeCode ai extra (filteredDiffOf (parseDiff d) (excludePatternsOf excl)) pr ≠ [] →
        (runMain action (some d) excl extra ai pr).submissions
          = [⟨pr.owner, pr.repo, pr.pull_number, pr.commit_id,
              analyzeCode ai extra (filteredDiffOf (parseDiff d) (excludePatternsOf excl)) pr⟩]) := by
  intro action d excl extra ai pr hact hd
  constructor
  · intro hempty
    constructor <;> simp [runMain, hact, hd, hempty]
  · intro hne
    have hlen : 0 < (analyzeCode ai extra
        (filteredDiffOf (parseDiff d) (excludePatternsOf excl)) pr).length :=
      List.length_pos.mpr hne
    simp [runMain, hact, hd, hlen]

/-- C5 witness: a run over a diff with no parseable file entries aggregates
no comments, makes no submission, and ends in the clean state. -/
theorem c5_witness :
    (runMain "opened" (some "x") "" "" nullOracle samplePR).submissions = []
      ∧ (runMain "opened" (some "x") "" "" nullOracle samplePR).result
          = RunResult.noComments :=
  (c5_submission_decision "opened" "x" "" "" nullOracle samplePR
    (Or.inl rfl) (by decide)).1 (by decide)

/-! ## Claim C6 -/

/-- C6 counterexample: with exclusion input "*.md", the derived pattern list
is ["*.md"], but — `*` not crossing `/` under default minimatch semantics —
the path docs/readme.md does not match it, so the FileEntry with that path
is RETAINED by the filter, refuting the claim that it is dropped. -/
theorem c6_star_does_not_cross_slash :
    excludePatternsOf "*.md" = ["*.md"]
      ∧ minimatch "docs/readme.md" "*.md" = false
      ∧ filteredDiffOf [mdFile] (excludePatternsOf "*.md") = [mdFile] := by
  refine ⟨by decide, by decide, by decide⟩

/-- A string has positive length exactly when it is non-empty. -/
theorem strLength_pos_iff (s : String) : 0 < s.length ↔ s ≠ "" := by
  obtain ⟨data⟩ := s
  cases data with
  | nil => exact ⟨fun h => absurd h (by decide), fun h => absurd rfl h⟩
  | cons c cs =>
    refine ⟨fun _ heq => ?_, fun _ => Nat.succ_pos _⟩
    have : (c :: cs : List Char) = [] := congrArg String.data heq
    exact absurd this (by simp)

/-- C6 (amended): the exclusion pattern list is the comma-split, trimmed,
empty-entry-free form of the input; a FileEntry is retained by the filter
iff its path matches none of the patterns under shell-glob semantics in
which `*` does not cross `/` (so docs/readme.md is retained under `*.md` —
it is dropped by `**/*.md` — while a bare readme.md would be dropped);
relative order of retained entries is preserved and no entry is mutated,
the output being a sublist of the input. -/
theorem c6_filter_semantics :
    (∀ input : String,
        excludePatternsOf input
          = ((strSplit input ',').map trimStr).filter (fun s => s ≠ ""))
    ∧ (∀ (parsed : List File) (patterns : List String),
        (filteredDiffOf parsed patterns).Sublist parsed)
    ∧ (∀ (parsed : List File) (patterns : List String) (f : File),
        f ∈ filteredDiffOf parsed patterns
          ↔ f ∈ parsed ∧ ∀ p ∈ patterns, minimatch (f.to.getD "") p = false)
    ∧ minimatch "readme.md" "*.md" = true
    ∧ minimatch "docs/readme.md" "**/*.md" = true
    ∧ minimatch "src/app.ts" "*.md" = false := by
  refine ⟨?_, ?_, ?_, by decide, by decide, by decide⟩
  · intro input
    unfold excludePatternsOf
    apply List.filter_congr
    intro s _
    have := strLength_pos_iff s
    simp only [decide_eq_decide]
    exact this
  · intro parsed patterns
    exact List.filter_sublist _
  · intro parsed patterns f
    simp only [filteredDiffOf, List.mem_filter, Bool.not_eq_true', List.any_eq_false]
    constructor
    · rintro ⟨h1, h2⟩
      exact ⟨h1, fun p hp => Bool.not_eq_true _ ▸ (h2 p hp)⟩
    · rintro ⟨h1, h2⟩
      exact ⟨h1, fun p hp => by simpa using h2 p hp⟩

/-! ## Claim C8 -/

/-- C8 counterexample: the Java/Spring variant's Prompt Builder takes no
extension parameter, and neither of the two messages of its prompt for a
concrete (chunk, PR context) contains the sentinel extension text, while the
primary builder's prompt for the same inputs does contain it verbatim —
refuting the claim that every prompt the pipeline sends contains the
caller-supplied extension. -/
theorem c8_variant_ignores_extension :
    (createPromptSpring sampleChunk samplePR).all
        (fun m => ! strContains m.content extSentinel) = true
      ∧ strContains (createPrompt extSentinel sampleFile sampleChunk samplePR)
          extSentinel = true := by
  refine ⟨by decide, by decide⟩

/-- C8 (amended): in the primary builder (src/main.ts `createPrompt`) the
prompt contains the caller-supplied free-text policy extension verbatim,
appended directly to the fixed reviewer policy; the Java/Spring variant
builder does not reference the extension, so its prompts need not contain
it. -/
theorem c8_extension_appended_in_primary :
    ∀ (extra : String) (file : File) (chunk : Chunk) (pr : PRDetails),
      ∃ post : String,
        createPrompt extra file chunk pr = fixedPolicy ++ extra ++ post := by
  intro extra file chunk pr
  refine ⟨"\n\nReview the following code diff in the file \""
      ++ jsTemplate file.to
      ++ "\" and take the pull request title and description into account when writing the response.\n  \nPull request title: "
      ++ pr.title
      ++ "\nPull request description:\n\n---\n"
      ++ pr.description
      ++ "\n---\n\nGit diff to review:\n\n```diff\n"
      ++ chunk.content
      ++ "\n"
      ++ diffContentOf chunk
      ++ "\n```\n", ?_⟩
  simp [createPrompt, fixedPolicy, String.append_assoc]

/-! ## Claim C9 -/

/-- C9: for an event action that is neither "opened" nor "synchronize",
`main` returns early in the unsupported-event state: the diff collaborator
is not invoked, no prompt is sent to the model, and no submission is made. -/
theorem c9_unsupported_event_short_circuits :
    ∀ (action : String) (diff : Option String) (excl extra : String)
      (ai : String → Option (List Finding)) (pr : PRDetails),
      action ≠ "opened" → action ≠ "synchronize" →
      runMain action diff excl extra ai pr
        = ⟨RunResult.unsupportedEvent, false, [], []⟩ := by
  intro action diff excl extra ai pr h1 h2
  simp [runMain, h1, h2]

/-- C9 witness: a "closed" event short-circuits even with a diff available. -/
theorem c9_witness :
    runMain "closed" (some "diff --git a/x b/x") "" "" nullOracle samplePR
      = ⟨RunResult.unsupportedEvent, false, [], []⟩ :=
  c9_unsupported_event_short_circuits "closed" (some "diff --git a/x b/x") "" ""
    nullOracle samplePR (by decide) (by decide)

end CodeReviewer
